import Mathlib

/-!
Shallow embedding of the `padding` Go package (traffic-shaping HTTP
middleware) and proofs about it.

The package has three parts:
* `padding.go` — a 4096-byte precomputed random pool (`precomputedPaddingData`,
  filled once at `init` from the single-character charset `"X"`), the
  cryptographically secure sampler `randInt`, and the pool reader
  `getPaddingSlice`;
* `paddings.go` — `paddingResponseWriter`, a response-writer wrapper that
  injects one padding header before the first header/body write, and the
  server middleware constructor `ToukaPaddingS`;
* the client middleware constructor `ToukaPadding`, which sets the padding
  header on each outbound request before delegating to the next round-tripper.

Go machine integers are embedded as `Int` with explicit wrapping
(`wrap64`) where `int64` overflow can occur.  The entropy source
(`crypto/rand.Reader`) is embedded as an explicit oracle argument: `none`
models a failing read and `some k` a successful one, with the library
guarantee that `rand.Int(reader, n)` yields a value in `[0, n)` rendered as
`k % n`.  Header maps are association lists of header name to value bytes;
the external response writer (the `touka.ResponseWriter` collaborator) is
embedded as the visible state the wrapper delegates to: its header map, the
committed status, how many times its header-commit was invoked, and the body
bytes it received, in order.
-/

namespace Padding

/-- Two's-complement wrap of a mathematical integer into the `int64` range
`[-2^63, 2^63)`, used wherever Go `int` arithmetic can overflow. -/
def wrap64 (x : Int) : Int := (x + 2 ^ 63) % 2 ^ 64 - 2 ^ 63

/-- Failure modes of `randInt`: the explicit range error returned for
`min > max`, a failed read from the entropy source, and the panic that
`crypto/rand.Int` raises when its bound argument is not positive (reachable
only when `max - min + 1` overflows `int64`). -/
inductive RandError where
  | invalidRange : RandError
  | entropyFailure : RandError
  | panicNonPositive : RandError
deriving DecidableEq

/-- `randInt(min, max)` from `padding.go`: a cryptographically secure integer
in `[min, max]`.  `ent` is the entropy oracle for the single
`rand.Int(rand.Reader, n)` call; `n` is computed with `int64` wrapping
exactly as Go evaluates `max - min + 1`. -/
def randInt (min max : Int) (ent : Option Nat) : Except RandError Int :=
  if min > max then .error .invalidRange
  else if min = max then .ok min
  else
    let n := wrap64 (max - min + 1)
    if n ≤ 0 then .error .panicNonPositive
    else
      match ent with
      | none => .error .entropyFailure
      | some k => .ok (wrap64 (((k % n.toNat : Nat) : Int) + min))

/-- `maxPaddingSize`: capacity of the precomputed pool and the largest
possible padding header length. -/
def maxPaddingSize : Int := 4096

/-- `paddingCharset = "X"`: the byte values of the charset the pool is filled
from (a single character, `'X' = 88`). -/
def paddingCharset : List Nat := [88]

/-- The `init` loop of `padding.go`: each pool byte is
`paddingCharset[randIndex]` with `randIndex` drawn from `[0, len(charset))`;
`initEnt` gives the per-index entropy outcome (a failed draw panics the
process, so only successful fills are states of the running program). -/
def precomputedPaddingDataWith (initEnt : Nat → Nat) : List Nat :=
  (List.range maxPaddingSize.toNat).map
    (fun i => paddingCharset.getD (initEnt i % paddingCharset.length) 0)

/-- `precomputedPaddingData`: the pool after `init`.  Because the charset has
a single character every successful fill produces the same pool, so the
canonical oracle is used. -/
def precomputedPaddingData : List Nat := precomputedPaddingDataWith (fun _ => 0)

/-- `getPaddingSlice(length)` from `padding.go`: clamp the request to the pool
capacity, pick a random start with `randInt(0, maxStart)` (falling back to 0
on error), and return the in-place sub-slice `pool[start : start+length]`.
`ent` is the entropy oracle handed to the offset draw. -/
def getPaddingSlice (length : Int) (ent : Option Nat) : List Nat :=
  if length ≤ 0 then []
  else
    let len := if length > maxPaddingSize then maxPaddingSize else length
    let maxStart := maxPaddingSize - len
    let start :=
      match randInt 0 maxStart ent with
      | .ok s => s
      | .error _ => 0
    (precomputedPaddingData.drop start.toNat).take len.toNat

/-- `PaddingProfile`: a padding length policy. -/
structure PaddingProfile where
  MinLength : Int
  MaxLength : Int
deriving DecidableEq

/-- `ProfileDefault = {96, 1024}`. -/
def ProfileDefault : PaddingProfile := ⟨96, 1024⟩

/-- `ProfileShort = {32, 256}`. -/
def ProfileShort : PaddingProfile := ⟨32, 256⟩

/-- `ProfileLong = {1024, maxPaddingSize}`. -/
def ProfileLong : PaddingProfile := ⟨1024, maxPaddingSize⟩

/-- `PaddingOptions`: middleware configuration; `Profile` is a nullable
pointer in Go, embedded as `Option`. -/
structure PaddingOptions where
  HeaderName : String
  Profile : Option PaddingProfile
deriving DecidableEq

/-- The three clamping steps that `ToukaPadding` and `ToukaPaddingS` apply to
the profile at installation time, in source order: cap `MaxLength` at
`maxPaddingSize`, floor `MinLength` at 0, then force `MinLength` down to
`MaxLength` when it still exceeds it. -/
def normalizeProfile (p : PaddingProfile) : PaddingProfile :=
  let p1 := if p.MaxLength > maxPaddingSize then { p with MaxLength := maxPaddingSize } else p
  let p2 := if p1.MinLength < 0 then { p1 with MinLength := 0 } else p1
  if p2.MinLength > p2.MaxLength then { p2 with MinLength := p2.MaxLength } else p2

/-- The full validation prologue shared verbatim by `ToukaPadding` and
`ToukaPaddingS`: default the header name to `"T-Padding"`, default a nil
profile to `ProfileDefault`, then clamp. -/
def normalizeOptions (opts : PaddingOptions) : String × PaddingProfile :=
  let name := if opts.HeaderName = "" then "T-Padding" else opts.HeaderName
  let p :=
    match opts.Profile with
    | none => ProfileDefault
    | some p => p
  (name, normalizeProfile p)

/-- Header maps (`http.Header` and the touka header collection): association
list from header name to value bytes. -/
abbrev Headers := List (String × List Nat)

/-- `Header().Set(key, value)` / `req.Header.Set(key, value)`: replace any
existing entry for the key with the single new value. -/
def hSet (hs : Headers) (key : String) (val : List Nat) : Headers :=
  (key, val) :: hs.filter (fun p => p.1 ≠ key)

/-- Header lookup (`Header().Get`): the value stored under the key. -/
def hGet (hs : Headers) (key : String) : Option (List Nat) :=
  (hs.find? (fun p => p.1 = key)).map Prod.snd

/-- Observable state of the wrapped `touka.ResponseWriter` the
`paddingResponseWriter` delegates to: its header map, the committed status
(`none` until its `WriteHeader` runs), how many times its `WriteHeader` was
delegated to, and the body bytes passed to its `Write`, in order. -/
structure Underlying where
  headers : Headers
  status : Option Int
  statusWrites : Nat
  body : List Nat
deriving DecidableEq

/-- `paddingResponseWriter` from `paddings.go`: the wrapper's own
`wroteHeader` flag and (normalized) options, plus the wrapped writer.  The
`sync.Mutex` only guards `wroteHeader`; in this sequential embedding a method
call is one atomic step, so the lock disappears. -/
structure paddingResponseWriter where
  wroteHeader : Bool
  headerName : String
  profile : PaddingProfile
  under : Underlying
deriving DecidableEq

/-- `paddingResponseWriter.WriteHeader`: if the flag is set, return at once;
otherwise set the flag, sample a padding length (oracle `entLen`), on success
with a positive length set the padding header from the pool (offset oracle
`entOff`), and finally delegate `WriteHeader(statusCode)` to the wrapped
writer. -/
def paddingResponseWriter.WriteHeader (prw : paddingResponseWriter) (statusCode : Int)
    (entLen entOff : Option Nat) : paddingResponseWriter :=
  if prw.wroteHeader then prw
  else
    let prw1 := { prw with wroteHeader := true }
    let prw2 :=
      match randInt prw1.profile.MinLength prw1.profile.MaxLength entLen with
      | .error _ => prw1
      | .ok paddingLen =>
        if paddingLen > 0 then
          { prw1 with under := { prw1.under with
              headers := hSet prw1.under.headers prw1.headerName
                (getPaddingSlice paddingLen entOff) } }
        else prw1
    { prw2 with under := { prw2.under with
        status := some statusCode, statusWrites := prw2.under.statusWrites + 1 } }

/-- `paddingResponseWriter.Write`: if the flag is unset, first run
`WriteHeader(http.StatusOK)` (the double-checked lock collapses to this test
sequentially), then delegate the bytes to the wrapped writer, which reports
`len(data)` written. -/
def paddingResponseWriter.Write (prw : paddingResponseWriter) (data : List Nat)
    (entLen entOff : Option Nat) : paddingResponseWriter × Nat :=
  let prw1 := if prw.wroteHeader then prw else prw.WriteHeader 200 entLen entOff
  ({ prw1 with under := { prw1.under with body := prw1.under.body ++ data } }, data.length)

/-- The per-request body of the handler `ToukaPaddingS` returns: wrap the
context's current writer in a fresh `paddingResponseWriter` carrying the
options normalized at installation time. -/
def ToukaPaddingS (opts : PaddingOptions) (w : Underlying) : paddingResponseWriter :=
  { wroteHeader := false
    headerName := (normalizeOptions opts).1
    profile := (normalizeOptions opts).2
    under := w }

/-- The per-request transform of the client middleware `ToukaPadding`
(identical in the round-tripper and handler variants): sample a length with
the installation-normalized profile; on error leave the request headers
untouched; on a positive length set the padding header. -/
def ToukaPadding (opts : PaddingOptions) (reqHeaders : Headers)
    (entLen entOff : Option Nat) : Headers :=
  match randInt (normalizeOptions opts).2.MinLength (normalizeOptions opts).2.MaxLength entLen with
  | .error _ => reqHeaders
  | .ok paddingLen =>
    if paddingLen > 0 then
      hSet reqHeaders (normalizeOptions opts).1 (getPaddingSlice paddingLen entOff)
    else reqHeaders

/-- The whole round trip of the `ToukaPadding` middleware: transform the
request headers, then return exactly what the next round-tripper returns for
the transformed request. -/
def ToukaPaddingRoundTrip {α : Type} (opts : PaddingOptions) (reqHeaders : Headers)
    (entLen entOff : Option Nat) (next : Headers → α) : α :=
  next (ToukaPadding opts reqHeaders entLen entOff)

/-- The value of the caller's `PaddingProfile` object after
`ToukaPadding`/`ToukaPaddingS` installation.  In the Go source
`opts.Profile` is a `*PaddingProfile`, and the clamping assignments
(`opts.Profile.MaxLength = …`, `opts.Profile.MinLength = …`) write through
that pointer, so the caller's object ends up holding the normalized
profile. -/
def callerProfileAfterInstall (p : PaddingProfile) : PaddingProfile :=
  normalizeProfile p

/-- The value of the preset `ProfileDefault` after an installation with a nil
`Profile`: the code sets `opts.Profile = &ProfileDefault` and clamps through
the pointer, so the preset itself receives the clamping writes. -/
def profileDefaultAfterNilInstall : PaddingProfile :=
  normalizeProfile ProfileDefault

instance {ε α : Type} [DecidableEq ε] [DecidableEq α] : DecidableEq (Except ε α)
  | .ok a, .ok b =>
    if h : a = b then .isTrue (by rw [h]) else .isFalse (fun hh => h (Except.ok.inj hh))
  | .ok _, .error _ => .isFalse (fun hh => Except.noConfusion hh)
  | .error _, .ok _ => .isFalse (fun hh => Except.noConfusion hh)
  | .error e, .error f =>
    if h : e = f then .isTrue (by rw [h]) else .isFalse (fun hh => h (Except.error.inj hh))

/-! ## Helper lemmas -/

lemma wrap64_pos_or (y : Int) (hy : 2 ≤ y) (hy2 : y ≤ 2 ^ 64) :
    wrap64 y ≤ 0 ∨ wrap64 y = y := by
  unfold wrap64
  omega

lemma randInt_self (m : Int) (ent : Option Nat) : randInt m m ent = .ok m := by
  simp [randInt]

lemma randInt_ok_mem {min max : Int} {ent : Option Nat} {v : Int}
    (h1 : -2 ^ 63 ≤ min) (h2 : max < 2 ^ 63) (h3 : min ≤ max)
    (h : randInt min max ent = .ok v) : min ≤ v ∧ v ≤ max := by
  simp only [randInt] at h
  rw [if_neg (by omega)] at h
  rcases eq_or_lt_of_le h3 with heq | hlt
  · rw [if_pos heq] at h
    have := Except.ok.inj h
    omega
  · rw [if_neg (by omega)] at h
    rcases wrap64_pos_or (max - min + 1) (by omega) (by omega) with hw | hw
    · rw [if_pos hw] at h
      exact absurd h (by simp)
    · rw [if_neg (by omega)] at h
      cases ent with
      | none => exact absurd h (by simp)
      | some k =>
        simp only at h
        have hv := Except.ok.inj h
        rw [hw] at hv
        have hpos : 0 < (max - min + 1).toNat := by omega
        have hmod : k % (max - min + 1).toNat < (max - min + 1).toNat := Nat.mod_lt k hpos
        unfold wrap64 at hv
        omega

lemma randInt_error_of_none {min max : Int} (h3 : min < max)
    (hw : 0 < wrap64 (max - min + 1)) :
    randInt min max none = .error .entropyFailure := by
  simp only [randInt]
  rw [if_neg (by omega), if_neg (by omega), if_neg (by omega)]

lemma precomputedPaddingDataWith_eq (e : Nat → Nat) :
    precomputedPaddingDataWith e = List.replicate maxPaddingSize.toNat 88 := by
  unfold precomputedPaddingDataWith paddingCharset
  simp [Nat.mod_one, List.getD]

lemma precomputedPaddingData_length : precomputedPaddingData.length = 4096 := by
  rw [precomputedPaddingData, precomputedPaddingDataWith_eq, List.length_replicate]
  rfl

/-- The clamp `getPaddingSlice` applies to its argument before touching the
pool. -/
def clampedLen (length : Int) : Int :=
  if length > maxPaddingSize then maxPaddingSize else length

lemma getPaddingSlice_eq_extract (length : Int) (ent : Option Nat) (h0 : 0 < length) :
    ∃ s : Nat, s + (clampedLen length).toNat ≤ 4096 ∧
      getPaddingSlice length ent =
        (precomputedPaddingData.drop s).take (clampedLen length).toNat := by
  unfold getPaddingSlice
  rw [if_neg (by omega)]
  simp only
  rcases hr : randInt 0 (maxPaddingSize - (if length > maxPaddingSize then maxPaddingSize else length)) ent with v | s
  case error =>
    refine ⟨0, ?_, rfl⟩
    simp only [clampedLen, maxPaddingSize] at *
    split <;> omega
  case ok =>
    have hb := randInt_ok_mem (by norm_num) (by simp only [maxPaddingSize]; split <;> omega)
      (by simp only [maxPaddingSize] at *; split <;> omega) hr
    refine ⟨s.toNat, ?_, rfl⟩
    simp only [clampedLen, maxPaddingSize] at *
    split <;> omega

lemma getPaddingSlice_length (length : Int) (ent : Option Nat) :
    (getPaddingSlice length ent).length =
      (if length ≤ 0 then 0 else (clampedLen length).toNat) := by
  by_cases h0 : length ≤ 0
  · rw [if_pos h0]
    unfold getPaddingSlice
    rw [if_pos h0]
    rfl
  · rw [if_neg h0]
    obtain ⟨s, hs, hextract⟩ := getPaddingSlice_eq_extract length ent (by omega)
    rw [hextract, List.length_take, List.length_drop, precomputedPaddingData_length]
    omega


lemma getPaddingSlice_err (length : Int) (ent : Option Nat) (e : RandError)
    (h0 : 0 < length)
    (hr : randInt 0 (maxPaddingSize - clampedLen length) ent = .error e) :
    getPaddingSlice length ent = precomputedPaddingData.take (clampedLen length).toNat := by
  unfold getPaddingSlice
  rw [if_neg (by omega)]
  simp only
  unfold clampedLen at hr
  rw [hr]
  rfl

lemma hGet_hSet (hs : Headers) (k : String) (v : List Nat) :
    hGet (hSet hs k v) k = some v := by
  simp [hGet, hSet]

lemma WriteHeader_of_wrote {prw : paddingResponseWriter} (h : prw.wroteHeader = true)
    (s : Int) (e1 e2 : Option Nat) : prw.WriteHeader s e1 e2 = prw := by
  unfold paddingResponseWriter.WriteHeader
  rw [if_pos h]

lemma WriteHeader_wroteHeader (prw : paddingResponseWriter) (s : Int) (e1 e2 : Option Nat) :
    (prw.WriteHeader s e1 e2).wroteHeader = true := by
  unfold paddingResponseWriter.WriteHeader
  split
  · assumption
  · dsimp only
    split <;> first | rfl | (split <;> rfl)

lemma WriteHeader_statusWrites {prw : paddingResponseWriter} (h : prw.wroteHeader = false)
    (s : Int) (e1 e2 : Option Nat) :
    (prw.WriteHeader s e1 e2).under.statusWrites = prw.under.statusWrites + 1 := by
  unfold paddingResponseWriter.WriteHeader
  rw [if_neg (by rw [h]; exact Bool.false_ne_true)]
  dsimp only
  split <;> first | rfl | (split <;> rfl)

lemma WriteHeader_status {prw : paddingResponseWriter} (h : prw.wroteHeader = false)
    (s : Int) (e1 e2 : Option Nat) :
    (prw.WriteHeader s e1 e2).under.status = some s := by
  unfold paddingResponseWriter.WriteHeader
  rw [if_neg (by rw [h]; exact Bool.false_ne_true)]

lemma WriteHeader_headers_of_ok {prw : paddingResponseWriter} (h : prw.wroteHeader = false)
    {len : Int} {e1 : Option Nat}
    (hr : randInt prw.profile.MinLength prw.profile.MaxLength e1 = .ok len)
    (hpos : len > 0) (s : Int) (e2 : Option Nat) :
    (prw.WriteHeader s e1 e2).under.headers =
      hSet prw.under.headers prw.headerName (getPaddingSlice len e2) := by
  unfold paddingResponseWriter.WriteHeader
  rw [if_neg (by rw [h]; exact Bool.false_ne_true)]
  dsimp only
  rw [hr]
  dsimp only
  rw [if_pos hpos]

lemma WriteHeader_headers_of_zero {prw : paddingResponseWriter} (h : prw.wroteHeader = false)
    {len : Int} {e1 : Option Nat}
    (hr : randInt prw.profile.MinLength prw.profile.MaxLength e1 = .ok len)
    (hnp : ¬ len > 0) (s : Int) (e2 : Option Nat) :
    (prw.WriteHeader s e1 e2).under.headers = prw.under.headers := by
  unfold paddingResponseWriter.WriteHeader
  rw [if_neg (by rw [h]; exact Bool.false_ne_true)]
  dsimp only
  rw [hr]
  dsimp only
  rw [if_neg hnp]

lemma WriteHeader_headers_of_error {prw : paddingResponseWriter} (h : prw.wroteHeader = false)
    {e : RandError} {e1 : Option Nat}
    (hr : randInt prw.profile.MinLength prw.profile.MaxLength e1 = .error e)
    (s : Int) (e2 : Option Nat) :
    (prw.WriteHeader s e1 e2).under.headers = prw.under.headers := by
  unfold paddingResponseWriter.WriteHeader
  rw [if_neg (by rw [h]; exact Bool.false_ne_true)]
  dsimp only
  rw [hr]

lemma WriteHeader_body {prw : paddingResponseWriter} (s : Int) (e1 e2 : Option Nat) :
    (prw.WriteHeader s e1 e2).under.body = prw.under.body := by
  unfold paddingResponseWriter.WriteHeader
  split
  · rfl
  · dsimp only
    split <;> first | rfl | (split <;> rfl)

lemma Write_of_not_wrote {prw : paddingResponseWriter} (h : prw.wroteHeader = false)
    (data : List Nat) (e1 e2 : Option Nat) :
    prw.Write data e1 e2 =
      (let one := prw.WriteHeader 200 e1 e2
       ({ one with under := { one.under with body := one.under.body ++ data } }, data.length)) := by
  unfold paddingResponseWriter.Write
  rw [if_neg (by rw [h]; exact Bool.false_ne_true)]


/-- C1: calling `WriteHeader` a second time after it has already run is a
silent no-op — the second call changes no state, while the first call on a
fresh writer delegates the status commit to the underlying writer exactly
once. -/
theorem writeHeader_second_call_noop (prw : paddingResponseWriter) (s1 s2 : Int)
    (e1 e2 e3 e4 : Option Nat) :
    (prw.WriteHeader s1 e1 e2).WriteHeader s2 e3 e4 = prw.WriteHeader s1 e1 e2
    ∧ (prw.wroteHeader = false →
        (prw.WriteHeader s1 e1 e2).under.statusWrites = prw.under.statusWrites + 1
        ∧ (prw.WriteHeader s1 e1 e2).under.status = some s1) :=
  ⟨WriteHeader_of_wrote (WriteHeader_wroteHeader prw s1 e1 e2) s2 e3 e4,
    fun h => ⟨WriteHeader_statusWrites h s1 e1 e2, WriteHeader_status h s1 e1 e2⟩⟩

/-- Witness for C1 at a concrete fresh writer. -/
theorem writeHeader_second_call_noop_witness :
    ((⟨false, "T-Padding", ⟨10, 10⟩, ⟨[], none, 0, []⟩⟩ :
        paddingResponseWriter).wroteHeader = false)
    ∧ (((⟨false, "T-Padding", ⟨10, 10⟩, ⟨[], none, 0, []⟩⟩ :
        paddingResponseWriter).WriteHeader 200 (some 0) (some 0)).WriteHeader 404
          (some 1) (some 1)
        = (⟨false, "T-Padding", ⟨10, 10⟩, ⟨[], none, 0, []⟩⟩ :
            paddingResponseWriter).WriteHeader 200 (some 0) (some 0))
    ∧ (((⟨false, "T-Padding", ⟨10, 10⟩, ⟨[], none, 0, []⟩⟩ :
        paddingResponseWriter).WriteHeader 200 (some 0) (some 0)).under.statusWrites = 0 + 1) :=
  ⟨rfl, (writeHeader_second_call_noop _ 200 404 (some 0) (some 0) (some 1) (some 1)).1,
    ((writeHeader_second_call_noop _ 200 404 (some 0) (some 0) (some 1) (some 1)).2 rfl).1⟩

/-- C2: calling `Write` on a writer whose header is not yet written first runs
the `WriteHeader` path with status 200, committing status and (for a positive
sampled length) the padding header, before the body bytes are appended
downstream. -/
theorem write_triggers_writeHeader (prw : paddingResponseWriter) (data : List Nat)
    (e1 e2 : Option Nat) (h : prw.wroteHeader = false) :
    prw.Write data e1 e2 =
      (let one := prw.WriteHeader 200 e1 e2
       ({ one with under := { one.under with body := one.under.body ++ data } }, data.length))
    ∧ (prw.WriteHeader 200 e1 e2).under.status = some 200
    ∧ (prw.WriteHeader 200 e1 e2).under.statusWrites = prw.under.statusWrites + 1
    ∧ ∀ len : Int, randInt prw.profile.MinLength prw.profile.MaxLength e1 = .ok len →
        0 < len →
        hGet (prw.WriteHeader 200 e1 e2).under.headers prw.headerName =
          some (getPaddingSlice len e2) := by
  refine ⟨Write_of_not_wrote h data e1 e2, WriteHeader_status h 200 e1 e2,
    WriteHeader_statusWrites h 200 e1 e2, fun len hr hpos => ?_⟩
  rw [WriteHeader_headers_of_ok h hr hpos 200 e2, hGet_hSet]

/-- Witness for C2 at a concrete fresh writer with the degenerate profile. -/
theorem write_triggers_writeHeader_witness :
    ((⟨false, "T-Padding", ⟨10, 10⟩, ⟨[], none, 0, []⟩⟩ :
        paddingResponseWriter).wroteHeader = false)
    ∧ randInt 10 10 (some 0) = .ok 10
    ∧ hGet (((⟨false, "T-Padding", ⟨10, 10⟩, ⟨[], none, 0, []⟩⟩ :
        paddingResponseWriter).WriteHeader 200 (some 0) (some 0)).under.headers)
        "T-Padding" = some (getPaddingSlice 10 (some 0)) :=
  ⟨rfl, by decide,
    (write_triggers_writeHeader _ [] (some 0) (some 0) rfl).2.2.2 10 (by decide) (by decide)⟩

/-- C3: for `int64` inputs with `min ≤ max`, a successful `randInt` yields a
value in `[min, max]`; with `min = max` it returns `min` for every entropy
outcome, including a failing one. -/
theorem randInt_in_range (min max : Int) (ent : Option Nat)
    (h1 : -2 ^ 63 ≤ min) (h2 : max < 2 ^ 63) (h3 : min ≤ max) :
    (∀ v, randInt min max ent = .ok v → min ≤ v ∧ v ≤ max)
    ∧ (min = max → randInt min max ent = .ok min) := by
  refine ⟨fun v h => randInt_ok_mem h1 h2 h3 h, fun heq => ?_⟩
  subst heq
  exact randInt_self min ent

/-- Witness for C3 at `randInt 3 7` with a concrete entropy value. -/
theorem randInt_in_range_witness :
    (-2 ^ 63 ≤ (3 : Int) ∧ (7 : Int) < 2 ^ 63 ∧ (3 : Int) ≤ 7)
    ∧ randInt 3 7 (some 9) = .ok 7
    ∧ ((3 : Int) ≤ 7 ∧ (7 : Int) ≤ 7) :=
  ⟨⟨by decide, by decide, by decide⟩, by decide,
    (randInt_in_range 3 7 (some 9) (by decide) (by decide) (by decide)).1 7 (by decide)⟩

/-- C4: with `min > max`, `randInt` fails with the invalid-range error and
returns no sampled value, for every entropy outcome. -/
theorem randInt_min_gt_max_errors (min max : Int) (ent : Option Nat) (h : min > max) :
    randInt min max ent = .error .invalidRange := by
  unfold randInt
  rw [if_pos h]

/-- Witness for C4 at `randInt 5 2`. -/
theorem randInt_min_gt_max_errors_witness :
    (5 : Int) > 2 ∧ randInt 5 2 (some 0) = .error .invalidRange :=
  ⟨by decide, randInt_min_gt_max_errors 5 2 (some 0) (by decide)⟩


/-- C5: `getPaddingSlice` returns an empty result for non-positive lengths,
exactly `maxPaddingSize` bytes above the capacity, and for requests within
capacity exactly `length` contiguous pool bytes starting at an offset whose
window stays inside the pool; the pool itself is a constant and is never
written. -/
theorem getPaddingSlice_spec (length : Int) (ent : Option Nat) :
    (length ≤ 0 → getPaddingSlice length ent = [])
    ∧ (maxPaddingSize < length →
        (getPaddingSlice length ent).length = maxPaddingSize.toNat)
    ∧ (0 < length → length ≤ maxPaddingSize →
        (getPaddingSlice length ent).length = length.toNat
        ∧ ∃ s : Nat, s + length.toNat ≤ maxPaddingSize.toNat
            ∧ getPaddingSlice length ent =
                (precomputedPaddingData.drop s).take length.toNat) := by
  refine ⟨fun h0 => ?_, fun hbig => ?_, fun h0 h1 => ⟨?_, ?_⟩⟩
  · unfold getPaddingSlice
    rw [if_pos h0]
  · rw [getPaddingSlice_length]
    simp only [maxPaddingSize] at *
    rw [if_neg (by omega)]
    unfold clampedLen maxPaddingSize
    rw [if_pos (by omega)]
  · rw [getPaddingSlice_length]
    simp only [maxPaddingSize] at *
    rw [if_neg (by omega)]
    unfold clampedLen maxPaddingSize
    rw [if_neg (by omega)]
  · obtain ⟨s, hs, hx⟩ := getPaddingSlice_eq_extract length ent h0
    refine ⟨s, ?_, ?_⟩
    · simp only [clampedLen, maxPaddingSize] at *
      rw [if_neg (by omega)] at hs
      omega
    · simp only [clampedLen, maxPaddingSize] at *
      rw [if_neg (by omega)] at hx
      exact hx

/-- Witness for C5 at an in-range length. -/
theorem getPaddingSlice_spec_witness :
    ((0 : Int) < 7 ∧ (7 : Int) ≤ maxPaddingSize)
    ∧ (getPaddingSlice 7 (some 3)).length = (7 : Int).toNat :=
  ⟨⟨by decide, by decide⟩,
    ((getPaddingSlice_spec 7 (some 3)).2.2 (by decide) (by decide)).1⟩

/-- C10: `getPaddingSlice` is total — its result length is determined by the
clamped request alone for every length and entropy outcome — and when the
offset draw fails it falls back to offset 0, returning the pool's prefix of
the clamped length. -/
theorem getPaddingSlice_total_and_fallback (length : Int) (ent : Option Nat) :
    (getPaddingSlice length ent).length =
      (if length ≤ 0 then 0 else (clampedLen length).toNat)
    ∧ ∀ e : RandError, 0 < length →
        randInt 0 (maxPaddingSize - clampedLen length) ent = .error e →
        getPaddingSlice length ent = precomputedPaddingData.take (clampedLen length).toNat :=
  ⟨getPaddingSlice_length length ent,
    fun e h0 hr => getPaddingSlice_err length ent e h0 hr⟩

/-- Witness for C10: a failing entropy read at length 10 still yields 10 bytes,
taken from offset 0. -/
theorem getPaddingSlice_total_and_fallback_witness :
    ((0 : Int) < 10
      ∧ randInt 0 (maxPaddingSize - clampedLen 10) none = .error .entropyFailure)
    ∧ getPaddingSlice 10 none = precomputedPaddingData.take (clampedLen 10).toNat :=
  ⟨⟨by decide, by decide⟩,
    (getPaddingSlice_total_and_fallback 10 none).2 .entropyFailure (by decide) (by decide)⟩

/-- C6 counterexample: a profile with `MaxLength = -1` normalizes to
`MinLength = -1`, violating the claimed `0 ≤ MinLength`. -/
theorem normalize_negative_max_cex :
    ¬ (0 ≤ (normalizeOptions ⟨"T-Padding", some ⟨0, -1⟩⟩).2.MinLength) := by decide

/-- C6 (amended): after installation-time normalization the effective profile
satisfies `MinLength ≤ MaxLength ≤ maxPaddingSize`, and `0 ≤ MinLength`
whenever `0 ≤ MaxLength`. -/
theorem normalize_invariant (opts : PaddingOptions) :
    (normalizeOptions opts).2.MinLength ≤ (normalizeOptions opts).2.MaxLength
    ∧ (normalizeOptions opts).2.MaxLength ≤ maxPaddingSize
    ∧ (0 ≤ (normalizeOptions opts).2.MaxLength →
        0 ≤ (normalizeOptions opts).2.MinLength) := by
  obtain ⟨name, po⟩ := opts
  rcases po with _ | p
  · refine ⟨?_, ?_, fun _ => ?_⟩ <;>
      simp [normalizeOptions, normalizeProfile, ProfileDefault, maxPaddingSize]
  · obtain ⟨a, b⟩ := p
    simp only [normalizeOptions, normalizeProfile, maxPaddingSize]
    split_ifs <;> simp_all

/-- Witness for C6's inner implication at a concrete profile. -/
theorem normalize_invariant_witness :
    (0 ≤ (normalizeOptions ⟨"", some ⟨-5, 100⟩⟩).2.MaxLength)
    ∧ 0 ≤ (normalizeOptions ⟨"", some ⟨-5, 100⟩⟩).2.MinLength :=
  ⟨by decide, (normalize_invariant ⟨"", some ⟨-5, 100⟩⟩).2.2 (by decide)⟩

/-- C9 counterexample: installing with the custom profile `{0, 5000}` leaves
the caller's profile object holding `{0, 4096}`, not its original value — the
clamping writes go through the shared pointer. -/
theorem install_mutates_caller_profile_cex :
    callerProfileAfterInstall ⟨0, 5000⟩ ≠ ⟨0, 5000⟩ := by decide

/-- C9 (amended): installation leaves the caller's profile object unchanged
whenever the profile already satisfies the clamping invariants
`0 ≤ MinLength ≤ MaxLength ≤ maxPaddingSize`; a profile outside them, such as
`{0, 5000}`, can be clamped in place through the caller's pointer.  The
preset `ProfileDefault` used for a nil profile is never modified. -/
theorem install_preserves_valid_profile (p : PaddingProfile)
    (h1 : 0 ≤ p.MinLength) (h2 : p.MinLength ≤ p.MaxLength)
    (h3 : p.MaxLength ≤ maxPaddingSize) :
    callerProfileAfterInstall p = p
    ∧ profileDefaultAfterNilInstall = ProfileDefault := by
  constructor
  · obtain ⟨a, b⟩ := p
    simp only [callerProfileAfterInstall, normalizeProfile, maxPaddingSize] at *
    split_ifs <;> simp_all <;> omega
  · decide

/-- Witness for C9 at the preset `ProfileShort`. -/
theorem install_preserves_valid_profile_witness :
    ((0 : Int) ≤ 32 ∧ (32 : Int) ≤ 256 ∧ (256 : Int) ≤ maxPaddingSize)
    ∧ callerProfileAfterInstall ⟨32, 256⟩ = ⟨32, 256⟩ :=
  ⟨⟨by decide, by decide, by decide⟩,
    (install_preserves_valid_profile ⟨32, 256⟩ (by decide) (by decide) (by decide)).1⟩


lemma getPaddingSlice_len_small {L : Int} (h0 : 0 < L) (h1 : L ≤ maxPaddingSize)
    (e2 : Option Nat) : (getPaddingSlice L e2).length = L.toNat := by
  rw [getPaddingSlice_length, if_neg (by omega)]
  unfold clampedLen maxPaddingSize at *
  rw [if_neg (by omega)]

lemma normalizeOptions_degenerate (name : String) (hname : name ≠ "") (L : Int)
    (h0 : 0 ≤ L) (h1 : L ≤ maxPaddingSize) :
    normalizeOptions ⟨name, some ⟨L, L⟩⟩ = (name, ⟨L, L⟩) := by
  simp only [normalizeOptions, normalizeProfile, maxPaddingSize] at *
  rw [if_neg hname]
  split_ifs <;> simp_all <;> omega

lemma ToukaPadding_degenerate_pos (name : String) (hname : name ≠ "") (L : Int)
    (h0 : 0 < L) (h1 : L ≤ maxPaddingSize) (req : Headers) (e1 e2 : Option Nat) :
    ToukaPadding ⟨name, some ⟨L, L⟩⟩ req e1 e2 = hSet req name (getPaddingSlice L e2) := by
  unfold ToukaPadding
  rw [normalizeOptions_degenerate name hname L (by omega) h1]
  dsimp only
  rw [randInt_self]
  dsimp only
  rw [if_pos h0]

lemma ToukaPadding_degenerate_zero (name : String) (hname : name ≠ "")
    (req : Headers) (e1 e2 : Option Nat) :
    ToukaPadding ⟨name, some ⟨0, 0⟩⟩ req e1 e2 = req := by
  unfold ToukaPadding
  rw [normalizeOptions_degenerate name hname 0 (by omega) (by unfold maxPaddingSize; omega)]
  dsimp only
  rw [randInt_self]
  dsimp only
  rw [if_neg (by omega)]

lemma ToukaPaddingS_degenerate (name : String) (hname : name ≠ "") (L : Int)
    (h0 : 0 ≤ L) (h1 : L ≤ maxPaddingSize) (w : Underlying) :
    ToukaPaddingS ⟨name, some ⟨L, L⟩⟩ w = ⟨false, name, ⟨L, L⟩, w⟩ := by
  unfold ToukaPaddingS
  rw [normalizeOptions_degenerate name hname L h0 h1]

lemma ToukaPaddingS_writeHeader_pos (name : String) (hname : name ≠ "") (L : Int)
    (h0 : 0 < L) (h1 : L ≤ maxPaddingSize) (w : Underlying) (s : Int)
    (e1 e2 : Option Nat) :
    ((ToukaPaddingS ⟨name, some ⟨L, L⟩⟩ w).WriteHeader s e1 e2).under.headers =
      hSet w.headers name (getPaddingSlice L e2) := by
  rw [ToukaPaddingS_degenerate name hname L (by omega) h1 w]
  exact WriteHeader_headers_of_ok rfl (randInt_self L e1) h0 s e2

lemma ToukaPaddingS_writeHeader_zero (name : String) (hname : name ≠ "")
    (w : Underlying) (s : Int) (e1 e2 : Option Nat) :
    ((ToukaPaddingS ⟨name, some ⟨0, 0⟩⟩ w).WriteHeader s e1 e2).under.headers =
      w.headers := by
  rw [ToukaPaddingS_degenerate name hname 0 (by omega) (by unfold maxPaddingSize; omega) w]
  exact WriteHeader_headers_of_zero rfl (randInt_self 0 e1) (by omega) s e2

/-- C7 counterexample: with the degenerate profile `{5000, 5000}` the header
value has 4096 bytes, not 5000 — installation clamps the profile to the pool
capacity first. -/
theorem degenerate_profile_overlong_cex :
    (hGet (ToukaPadding ⟨"X-Pad", some ⟨5000, 5000⟩⟩ [] (some 0) (some 0)) "X-Pad").map
        List.length = some 4096
    ∧ (4096 : Nat) ≠ 5000 := by
  constructor
  · unfold ToukaPadding
    rw [show normalizeOptions ⟨"X-Pad", some ⟨5000, 5000⟩⟩ = ("X-Pad", ⟨4096, 4096⟩)
      from by decide]
    dsimp only
    rw [randInt_self]
    dsimp only
    rw [if_pos (by omega : (4096 : Int) > 0), hGet_hSet]
    simp only [Option.map]
    rw [getPaddingSlice_len_small (by omega) (by unfold maxPaddingSize; omega) (some 0)]
    rfl
  · decide

/-- C7 (amended): for any non-empty header name and degenerate profile
`{L, L}` with `0 < L ≤ maxPaddingSize`, processing a message — on the
outbound path or through the response writer — sets the configured header to
a value of exactly `L` bytes; with `L = 0` no padding header is set at
all. -/
theorem degenerate_profile_header (L : Int) (name : String) (req : Headers)
    (w : Underlying) (s : Int) (e1 e2 : Option Nat) (hname : name ≠ "") :
    (0 < L → L ≤ maxPaddingSize →
      (∃ v, hGet (ToukaPadding ⟨name, some ⟨L, L⟩⟩ req e1 e2) name = some v
          ∧ v.length = L.toNat)
      ∧ (∃ v, hGet ((ToukaPaddingS ⟨name, some ⟨L, L⟩⟩ w).WriteHeader s e1 e2).under.headers
            name = some v ∧ v.length = L.toNat))
    ∧ (L = 0 →
      ToukaPadding ⟨name, some ⟨L, L⟩⟩ req e1 e2 = req
      ∧ ((ToukaPaddingS ⟨name, some ⟨L, L⟩⟩ w).WriteHeader s e1 e2).under.headers
          = w.headers) := by
  constructor
  · intro h0 h1
    constructor
    · refine ⟨getPaddingSlice L e2, ?_, getPaddingSlice_len_small h0 h1 e2⟩
      rw [ToukaPadding_degenerate_pos name hname L h0 h1 req e1 e2, hGet_hSet]
    · refine ⟨getPaddingSlice L e2, ?_, getPaddingSlice_len_small h0 h1 e2⟩
      rw [ToukaPaddingS_writeHeader_pos name hname L h0 h1 w s e1 e2, hGet_hSet]
  · intro hL
    subst hL
    exact ⟨ToukaPadding_degenerate_zero name hname req e1 e2,
      ToukaPaddingS_writeHeader_zero name hname w s e1 e2⟩

/-- Witness for C7 at the spec's scenario: profile `{10, 10}`, header
`"X-Pad"`. -/
theorem degenerate_profile_header_witness :
    (("X-Pad" : String) ≠ "" ∧ (0 : Int) < 10 ∧ (10 : Int) ≤ maxPaddingSize)
    ∧ ∃ v, hGet (ToukaPadding ⟨"X-Pad", some ⟨10, 10⟩⟩ [] (some 0) (some 0)) "X-Pad"
        = some v ∧ v.length = (10 : Int).toNat :=
  ⟨⟨by decide, by decide, by decide⟩,
    ((degenerate_profile_header 10 "X-Pad" [] ⟨[], none, 0, []⟩ 200 (some 0) (some 0)
      (by decide)).1 (by decide) (by decide)).1⟩

/-- C8: when the per-request length sampling fails, the outbound middleware
leaves the request headers unchanged and still returns exactly what the next
round-tripper returns — no error of its own. -/
theorem sampling_failure_fail_open {α : Type} (opts : PaddingOptions) (req : Headers)
    (e1 e2 : Option Nat) (err : RandError) (next : Headers → α)
    (h : randInt (normalizeOptions opts).2.MinLength (normalizeOptions opts).2.MaxLength e1
      = .error err) :
    ToukaPadding opts req e1 e2 = req
    ∧ ToukaPaddingRoundTrip opts req e1 e2 next = next req := by
  have ht : ToukaPadding opts req e1 e2 = req := by
    unfold ToukaPadding
    rw [h]
  refine ⟨ht, ?_⟩
  unfold ToukaPaddingRoundTrip
  rw [ht]

/-- Witness for C8: default options, failing entropy read. -/
theorem sampling_failure_fail_open_witness :
    randInt (normalizeOptions ⟨"", none⟩).2.MinLength
        (normalizeOptions ⟨"", none⟩).2.MaxLength none = .error .entropyFailure
    ∧ ToukaPaddingRoundTrip ⟨"", none⟩ [("A", [1])] none none (fun hs => hs)
        = [("A", [1])] :=
  ⟨by decide,
    (sampling_failure_fail_open ⟨"", none⟩ [("A", [1])] none none .entropyFailure
      (fun hs => hs) (by decide)).2⟩

end Padding
